import Mathlib

/-!
Verification development for the GISTEMP step3/step5 aggregation code
(`src/steps/step3.py`, `src/steps/step5.py`).

Numbers that the Python code handles as floats are modelled as rationals
(`ℚ`) where the properties under study are exact arithmetic and control
flow, and as reals (`ℝ`) where they involve trigonometry.  Python lists
are modelled as Lean lists; generators are modelled as functions from the
materialised input list to the output list (plus an explicit error
component where the Python code can raise).
-/

namespace Gistemp

/-- The sentinel for absent monthly values (`giss_data.MISSING`; the
metadata in `step3.py` records `missing_flag=9999`). -/
def MISSING : ℚ := 9999

/-! ### `sort_perm` (step5.py lines 388-399)

The Python code builds `z = list(zip(a, range(len(a))))` and runs the
stable `sorted` with key `x[1] - x[0]` (index minus value, ascending).
A stable sort by a key is modelled by `List.insertionSort` on the
comparison of keys, which is stable for ties exactly as Python's sort. -/

/-- The sort key `x[1] - x[0]` used in `sort_perm` (`x` is a
(value, original-index) pair). -/
def skey (p : ℤ × ℕ) : ℤ := (p.2 : ℤ) - p.1

/-- Shallow embedding of `sort_perm` (step5.py lines 388-399). -/
def sort_perm (a : List ℤ) : List ℤ × List ℕ :=
  let z := a.zip (List.range a.length)
  let z2 := z.insertionSort (fun x y => skey x ≤ skey y)
  (z2.map Prod.fst, z2.map Prod.snd)

/-! ### `zonav` band combination selection (step5.py lines 300-350)

For one band, the code sorts the box lengths with `sort_perm`, seeds the
band series with the box of sorted rank 0, and then combines the boxes of
sorted ranks 1.. in order, stopping at the first rank whose *sorted*
length entry is zero.  `bandCombineSelection` returns the original box
indices that are seeded/combined, in the order the code uses them. -/

/-- Original indices of the boxes of one band that `zonav` seeds or
combines (step5.py lines 318-346): empty when the total length is zero,
otherwise the rank-0 box followed by the ranked boxes up to (excluding)
the first sorted length equal to zero. -/
def bandCombineSelection (box_length : List ℤ) : List ℕ :=
  if box_length.sum = 0 then []
  else
    match sort_perm box_length with
    | (slen, iord) =>
      match slen, iord with
      | _ :: slenTail, nr0 :: iordTail =>
          nr0 :: ((slenTail.zip iordTail).takeWhile (fun p => decide (p.1 ≠ 0))).map Prod.snd
      | _, _ => []

/-! ### `zones` and the band partition of the box stream
(step5.py lines 300-360, 402-430) -/

/-- Number of boxes in each of the 8 bands (`zones`, step5.py line 420). -/
def boxes_in_band : List ℕ := [4, 8, 12, 16, 16, 12, 8, 4]

/-- Split a stream into consecutive groups of the given sizes (the
pattern of `zonav`'s `next(boxed_data)` calls, step5.py lines 310-313);
`none` when the stream runs out mid-band (in which case the Python 3.4
generator would terminate silently on the propagated `StopIteration`). -/
def takeGroups {α : Type} : List ℕ → List α → Option (List (List α) × List α)
  | [], s => some ([], s)
  | k :: ks, s =>
    if k ≤ s.length then
      match takeGroups ks (s.drop k) with
      | some (gs, rest) => some (s.take k :: gs, rest)
      | none => none
    else none

/-- The groups taken by `takeGroups` when it succeeds. -/
def groupsOf {α : Type} : List ℕ → List α → List (List α)
  | [], _ => []
  | k :: ks, s => s.take k :: groupsOf ks (s.drop k)

/-- The band-consumption pattern of `zonav` applied to the box stream. -/
def zonavBands {α : Type} (stream : List α) : Option (List (List α) × List α) :=
  takeGroups boxes_in_band stream

/-- The exhaustion check after the 8 bands (step5.py lines 355-360):
`next(boxed_data)` succeeding trips `assert 0, "Too many boxes found"`;
`StopIteration` means the stream is exhausted and processing proceeds. -/
def tooManyCheck {α : Type} : List α → Except String Unit
  | [] => Except.ok ()
  | _ :: _ => Except.error "Too many boxes found"

theorem takeGroups_spec {α : Type} :
    ∀ (ks : List ℕ) (s : List α), ks.sum ≤ s.length →
      takeGroups ks s = some (groupsOf ks s, s.drop ks.sum) ∧
      (groupsOf ks s).map List.length = ks ∧
      (groupsOf ks s).flatten = s.take ks.sum
  | [], s, _ => by simp [takeGroups, groupsOf]
  | k :: ks, s, h => by
    have hk : k ≤ s.length := by
      have := List.sum_cons (a := k) (l := ks) ▸ h
      omega
    have hrec : ks.sum ≤ (s.drop k).length := by
      rw [List.length_drop]
      have := List.sum_cons (a := k) (l := ks) ▸ h
      omega
    obtain ⟨h1, h2, h3⟩ := takeGroups_spec ks (s.drop k) hrec
    refine ⟨?_, ?_, ?_⟩
    · rw [takeGroups, if_pos hk, h1]
      simp [groupsOf, List.sum_cons, List.drop_drop, Nat.add_comm]
    · simp [groupsOf, h2, List.length_take, Nat.min_eq_left hk]
    · rw [groupsOf, List.flatten_cons, h3, List.sum_cons, List.take_add]

/-- C1: `sort_perm` does not sort into descending order.  On the input
`[0, 1]` the two key values `index - value` are `0 - 0 = 0` and
`1 - 1 = 0`, so the stable sort keeps the input order and returns the
ascending pair `([0, 1], [0, 1])`, contradicting the documented contract
(descending order, here `([1, 0], [1, 0])`). -/
theorem C1_sort_perm_not_descending :
    sort_perm [0, 1] = ([0, 1], [0, 1]) ∧
    ¬ (sort_perm [0, 1]).1.getD 1 0 ≤ (sort_perm [0, 1]).1.getD 0 0 := by
  decide

/-- C4: the early exit of `zonav`'s band loop can skip a box with valid
months.  For a band of 4 boxes with lengths `[0, 5, 0, 1]`, `sort_perm`
returns the length sequence `(5, 0, 0, 1)` (not descending), so the loop
breaks at rank 1 and only the seed box (original index 1) is ever
combined, while box 3 still has 1 valid month. -/
theorem C4_band_early_exit_skips_nonzero :
    bandCombineSelection [0, 5, 0, 1] = [1] ∧
    ([0, 5, 0, 1] : List ℤ).getD 3 0 = 1 ∧
    3 ∉ bandCombineSelection [0, 5, 0, 1] := by
  decide

/-- C5: `zonav` consumes exactly 80 boxes from the box stream, in
consecutive groups of sizes 4, 8, 12, 16, 16, 12, 8, 4 (one group per
band, in that order); after the 8 bands it checks the stream: a further
box trips the assertion `"Too many boxes found"`, and an exhausted
stream passes the check and processing proceeds. -/
theorem C5_zonav_band_partition {α : Type} (stream : List α)
    (h : 80 ≤ stream.length) :
    zonavBands stream = some (groupsOf boxes_in_band stream, stream.drop 80) ∧
    (groupsOf boxes_in_band stream).map List.length = [4, 8, 12, 16, 16, 12, 8, 4] ∧
    (groupsOf boxes_in_band stream).flatten = stream.take 80 ∧
    (stream.length = 80 → tooManyCheck (stream.drop 80) = Except.ok ()) ∧
    (80 < stream.length →
      tooManyCheck (stream.drop 80) = Except.error "Too many boxes found") := by
  have hsum : boxes_in_band.sum = 80 := by decide
  have h80 : boxes_in_band.sum ≤ stream.length := by omega
  obtain ⟨h1, h2, h3⟩ := takeGroups_spec boxes_in_band stream h80
  rw [hsum] at h1 h3
  refine ⟨h1, by rw [h2]; rfl, h3, ?_, ?_⟩
  · intro he
    have : stream.drop 80 = [] := by
      apply List.eq_nil_of_length_eq_zero
      rw [List.length_drop, he]
    rw [this]; rfl
  · intro hgt
    have hlen : (stream.drop 80).length = stream.length - 80 := List.length_drop ..
    cases hd : stream.drop 80 with
    | nil => rw [hd] at hlen; simp at hlen; omega
    | cons a l => rfl

/-- Witness for C5 at a concrete stream of 81 boxes. -/
theorem C5_zonav_band_partition_witness :
    80 ≤ (List.replicate 81 (0 : ℕ)).length ∧
    (zonavBands (List.replicate 81 (0 : ℕ)) =
        some (groupsOf boxes_in_band (List.replicate 81 0),
          (List.replicate 81 (0 : ℕ)).drop 80) ∧
      (groupsOf boxes_in_band (List.replicate 81 (0 : ℕ))).map List.length =
        [4, 8, 12, 16, 16, 12, 8, 4] ∧
      (groupsOf boxes_in_band (List.replicate 81 (0 : ℕ))).flatten =
        (List.replicate 81 (0 : ℕ)).take 80 ∧
      ((List.replicate 81 (0 : ℕ)).length = 80 →
        tooManyCheck ((List.replicate 81 (0 : ℕ)).drop 80) = Except.ok ()) ∧
      (80 < (List.replicate 81 (0 : ℕ)).length →
        tooManyCheck ((List.replicate 81 (0 : ℕ)).drop 80) =
          Except.error "Too many boxes found")) :=
  ⟨by decide, C5_zonav_band_partition (List.replicate 81 0) (by decide)⟩

/-! ### The series collaborators (`steps/series.py`, not under `src/`)

`series.combine` and `series.anomalize` are imported by both step files
but their module is not part of the provided sources, so they are
modelled from the spec's contracts (§4.2, §4.3). -/

/-- Modelled from the spec: `series.combine` (its module `steps/series.py`
is not under `src/`).  Spec §4.3: overlap is the count of common valid
months measured over the full series; if it is below the minimum-overlap
threshold the incoming series is ignored entirely (fail closed).
Otherwise, months where both series are valid become the
weight-proportional mean and the weight grows by the incoming weight;
months where only the incoming series is valid adopt the incoming value
at the incoming weight.  Returns the updated series, the updated weight
series, and a per-calendar-month (0-11) count of newly valid months. -/
def combine (avg wtArr new : List ℚ) (newWt : ℚ) (minOverlap : ℕ) :
    List ℚ × List ℚ × List ℕ :=
  let idx := List.range avg.length
  let overlap := (idx.filter (fun i =>
    decide (avg.getD i MISSING ≠ MISSING ∧ new.getD i MISSING ≠ MISSING))).length
  if overlap < minOverlap then (avg, wtArr, List.replicate 12 0)
  else
    let avg2 := idx.map (fun i =>
      let a := avg.getD i MISSING
      let v := new.getD i MISSING
      if v = MISSING then a
      else if a = MISSING then v
      else (wtArr.getD i 0 * a + newWt * v) / (wtArr.getD i 0 + newWt))
    let wt2 := idx.map (fun i =>
      if new.getD i MISSING = MISSING then wtArr.getD i 0 else wtArr.getD i 0 + newWt)
    let months := (List.range 12).map (fun m =>
      (idx.filter (fun i => decide (i % 12 = m ∧ avg.getD i MISSING = MISSING ∧
        new.getD i MISSING ≠ MISSING))).length)
    (avg2, wt2, months)

/-- Modelled from the spec: `series.anomalize` (its module
`steps/series.py` is not under `src/`).  Spec §4.2: for each of the 12
calendar months, the mean of the valid values falling in the inclusive
reference period `[refFirst, refLast]` is subtracted from every valid
value of that calendar month; MISSING values are untouched.  For a
calendar month with no valid reference-period value the values of that
month are left unchanged (the documented policy choice of §9). -/
def anomalize (s : List ℚ) (refFirst refLast firstYear : ℤ) : List ℚ :=
  let refVals := fun (m : ℕ) => (List.range s.length).filterMap (fun i =>
    if i % 12 = m ∧ refFirst ≤ firstYear + (i / 12 : ℕ) ∧
        firstYear + (i / 12 : ℕ) ≤ refLast ∧ s.getD i MISSING ≠ MISSING
    then some (s.getD i MISSING) else none)
  (List.range s.length).map (fun i =>
    let v := s.getD i MISSING
    if v = MISSING then v
    else
      let rv := refVals (i % 12)
      if rv.length = 0 then v else v - rv.sum / (rv.length : ℚ))

/-! ### `iter_subbox_grid`, per-cell combination (step3.py lines 128-204)

A station record as `iter_subbox_grid` reads it: identifier, monthly
series, 1-based offsets of the first and last valid month relative to
the global timeline, and the count of valid months. -/

structure GridRec where
  uid : String
  series : List ℚ
  rel_first_month : ℕ
  rel_last_month : ℕ
  good_count : ℕ
  deriving DecidableEq

/-- The fields of the `giss_data.Series` built for one cell, plus the
`contributed` audit list `[station id, weight, 12 month flags]` that the
code logs for a non-empty cell (step3.py lines 159-203; the `box` field
and the log write itself are omitted). -/
structure CellOut where
  series : List ℚ
  stations : ℕ
  station_months : ℕ
  d : ℚ
  contributed : List (String × ℚ × List Bool)
  deriving DecidableEq

/-- Python slice assignment `base[lo:hi] = xs` on a list (for
`0 ≤ lo ≤ hi ≤ base.length`). -/
def spliceAt (base : List ℚ) (lo hi : ℕ) (xs : List ℚ) : List ℚ :=
  base.take lo ++ xs ++ base.drop hi

/-- The per-calendar-month validity flags
`[any(valid(v) for v in s[i::12]) for i in range(12)]` (step3.py line 168). -/
def monthBits (s : List ℚ) : List Bool :=
  (List.range 12).map (fun m =>
    ((List.range s.length).filter (fun i => decide (i % 12 = m))).any
      (fun i => decide (s.getD i MISSING ≠ MISSING)))

/-- The loop state of the per-cell combination (step3.py lines 145-189). -/
structure CellState where
  series : List ℚ
  weight : List ℚ
  maxw : ℚ
  stations : ℕ
  goodMonths : ℕ
  contributed : List (String × ℚ × List Bool)

/-- One iteration of the `for record, wt in contributors[1:]` loop
(step3.py lines 173-189). -/
def cellStep (maxMonths minOverlap : ℕ) (st : CellState) (c : GridRec × ℚ) :
    CellState :=
  let record := c.1
  let wt := c.2
  let new := spliceAt (List.replicate maxMonths MISSING)
    (record.rel_first_month - 1) record.rel_last_month record.series
  let res := combine st.series st.weight new wt minOverlap
  let months := res.2.2
  let ngood := months.sum
  if ngood = 0 then
    ⟨res.1, res.2.1, st.maxw, st.stations, st.goodMonths + ngood,
      st.contributed ++ [(record.uid, 0, List.replicate 12 false)]⟩
  else
    ⟨res.1, res.2.1, max st.maxw wt, st.stations + 1, st.goodMonths + ngood,
      st.contributed ++ [(record.uid, wt, months.map (fun x => decide (x ≠ 0)))]⟩

/-- Shallow embedding of the per-cell body of `iter_subbox_grid`
(step3.py lines 128-204): given the contributor list produced by
`incircle` (already globally sorted by descending `good_count`), build
the cell's output.  An empty contributor list gives the empty cell of
lines 133-143; otherwise the first contributor seeds the series, the
rest are folded in through `series.combine`, and the series is
anomalized. -/
def cellFor (maxMonths minOverlap : ℕ) (radius : ℚ) (refS refE firstYear : ℤ)
    (contributors : List (GridRec × ℚ)) : CellOut :=
  match contributors with
  | [] => ⟨List.replicate maxMonths MISSING, 0, 0, MISSING, []⟩
  | (record, wt) :: rest =>
    let offset := record.rel_first_month - 1
    let s0 := spliceAt (List.replicate maxMonths MISSING) offset
      (offset + record.series.length) record.series
    let w0 := s0.map (fun v => if v = MISSING then 0 else wt)
    let st0 : CellState :=
      ⟨s0, w0, wt, 1, record.good_count, [(record.uid, wt, monthBits s0)]⟩
    let stF := rest.foldl (cellStep maxMonths minOverlap) st0
    ⟨anomalize stF.series refS refE firstYear, stF.stations, stF.goodMonths,
      radius * (1 - stF.maxw), stF.contributed⟩

/-- C9: a cell whose contributor selection is empty is emitted as the
empty cell: an all-MISSING series of length `max_months`, zero stations,
zero station-months, and a MISSING quality score (step3.py lines
131-143); the empty branch only constructs this record, so yielding it
raises nothing. -/
theorem C9_empty_cell (maxMonths minOverlap : ℕ) (radius : ℚ)
    (refS refE firstYear : ℤ) :
    (cellFor maxMonths minOverlap radius refS refE firstYear []).series =
        List.replicate maxMonths MISSING ∧
    (cellFor maxMonths minOverlap radius refS refE firstYear []).series.length =
        maxMonths ∧
    (∀ v ∈ (cellFor maxMonths minOverlap radius refS refE firstYear []).series,
        v = MISSING) ∧
    (cellFor maxMonths minOverlap radius refS refE firstYear []).stations = 0 ∧
    (cellFor maxMonths minOverlap radius refS refE firstYear []).station_months = 0 ∧
    (cellFor maxMonths minOverlap radius refS refE firstYear []).d = MISSING := by
  refine ⟨rfl, by simp [cellFor], ?_, rfl, rfl, rfl⟩
  intro v hv
  exact List.eq_of_mem_replicate hv

/-- The quantity named by C3's claim: the maximum proximity weight over
all contributors returned by `incircle` for the cell (stated from the
claim's words, for comparison with what the code computes). -/
def maxWeightAll (contributors : List (GridRec × ℚ)) : ℚ :=
  contributors.foldl (fun m c => max m c.2) 0

/-- C3 counterexample: a second contributor whose merge adds no newly
valid months (here: one overlapping month against a minimum overlap of
20) is skipped by the `continue` at step3.py line 184 before the
`max_weight` update at line 189, so its larger weight 9/10 never enters
`max_weight` and `d = 1200·(1 − 1/2) = 600`, not
`1200·(1 − 9/10) = 120` as the claim states. -/
theorem C3_quality_score_counterexample :
    (cellFor 12 20 1200 1951 1980 1880
        [(⟨"A", [1, 1, 1, 1, 1, 1, 1, 1, 1, 1, 1, 1], 1, 12, 12⟩, 1/2),
         (⟨"B", [2], 1, 1, 1⟩, 9/10)]).d ≠
      1200 * (1 - maxWeightAll
        [(⟨"A", [1, 1, 1, 1, 1, 1, 1, 1, 1, 1, 1, 1], 1, 12, 12⟩, 1/2),
         (⟨"B", [2], 1, 1, 1⟩, 9/10)]) := by
  have h1 : (cellFor 12 20 1200 1951 1980 1880
      [(⟨"A", [1, 1, 1, 1, 1, 1, 1, 1, 1, 1, 1, 1], 1, 12, 12⟩, 1/2),
       (⟨"B", [2], 1, 1, 1⟩, 9/10)]).d = 1200 * (1 - 1/2) := rfl
  have h2 : maxWeightAll
      [((⟨"A", [1, 1, 1, 1, 1, 1, 1, 1, 1, 1, 1, 1], 1, 12, 12⟩ : GridRec),
        (1/2 : ℚ)), (⟨"B", [2], 1, 1, 1⟩, 9/10)] = 9/10 := by
    norm_num [maxWeightAll, max_def]
  rw [h1, h2]
  norm_num

/-- The maximum over the weights recorded in the per-cell audit list
(each contributor that added no newly valid month is recorded there with
weight 0). -/
def auditMaxWeight (entries : List (String × ℚ × List Bool)) : ℚ :=
  entries.foldl (fun m e => max m e.2.1) 0

theorem auditMaxWeight_append (l : List (String × ℚ × List Bool))
    (e : String × ℚ × List Bool) :
    auditMaxWeight (l ++ [e]) = max (auditMaxWeight l) e.2.1 := by
  simp [auditMaxWeight, List.foldl_append]

theorem cellFold_maxw (maxMonths minOverlap : ℕ) :
    ∀ (rest : List (GridRec × ℚ)) (st : CellState),
      auditMaxWeight st.contributed = st.maxw → 0 ≤ st.maxw →
      (∀ c ∈ rest, 0 ≤ c.2) →
      auditMaxWeight
          ((rest.foldl (cellStep maxMonths minOverlap) st).contributed) =
          (rest.foldl (cellStep maxMonths minOverlap) st).maxw ∧
        0 ≤ (rest.foldl (cellStep maxMonths minOverlap) st).maxw
  | [], st, h1, h2, _ => ⟨h1, h2⟩
  | c :: rest, st, h1, h2, h3 => by
    rw [List.foldl_cons]
    refine cellFold_maxw maxMonths minOverlap rest _ ?_ ?_
      (fun x hx => h3 x (List.mem_cons_of_mem _ hx)) <;>
      · have hc : 0 ≤ c.2 := h3 c (List.mem_cons_self _ _)
        by_cases hng : (combine st.series st.weight
            (spliceAt (List.replicate maxMonths MISSING)
              (c.1.rel_first_month - 1) c.1.rel_last_month c.1.series)
            c.2 minOverlap).2.2.sum = 0 <;>
          simp [cellStep, hng, auditMaxWeight_append, h1, h2, hc,
            max_eq_left, le_max_left, le_max_of_le_left h2]

/-- C3 as amended: the quality score is `d = radius × (1 − max_weight)`
where `max_weight` is the maximum weight over the seed contributor and
those later contributors whose merge added at least one newly valid
month — equivalently (for the nonnegative weights `incircle` produces)
the maximum weight recorded in the cell's audit list, in which a
contributor that added no newly valid month is recorded with weight 0. -/
theorem C3_quality_score_amended (maxMonths minOverlap : ℕ) (radius : ℚ)
    (refS refE firstYear : ℤ) (contributors : List (GridRec × ℚ))
    (hne : contributors ≠ []) (hw : ∀ c ∈ contributors, 0 ≤ c.2) :
    (cellFor maxMonths minOverlap radius refS refE firstYear contributors).d =
      radius * (1 - auditMaxWeight
        (cellFor maxMonths minOverlap radius refS refE firstYear
          contributors).contributed) := by
  match contributors, hne with
  | (record, wt) :: rest, _ =>
    have hwt : 0 ≤ wt := hw _ (List.mem_cons_self _ _)
    have hrest : ∀ x ∈ rest, 0 ≤ x.2 :=
      fun x hx => hw x (List.mem_cons_of_mem _ hx)
    have h0 : auditMaxWeight [(record.uid, wt,
        monthBits (spliceAt (List.replicate maxMonths MISSING)
          (record.rel_first_month - 1)
          (record.rel_first_month - 1 + record.series.length) record.series))] =
        wt := by
      simp [auditMaxWeight, max_eq_right hwt]
    obtain ⟨hA, _⟩ := cellFold_maxw maxMonths minOverlap rest
      ⟨_, _, wt, 1, record.good_count, [(record.uid, wt, monthBits _)]⟩
      h0 hwt hrest
    simp only [cellFor]
    rw [hA]

/-- Witness for the amended C3 at the concrete two-contributor cell. -/
theorem C3_quality_score_amended_witness :
    ([((⟨"A", [1, 1, 1, 1, 1, 1, 1, 1, 1, 1, 1, 1], 1, 12, 12⟩ : GridRec),
        (1/2 : ℚ)), (⟨"B", [2], 1, 1, 1⟩, 9/10)] ≠
      ([] : List (GridRec × ℚ))) ∧
    (cellFor 12 20 1200 1951 1980 1880
        [(⟨"A", [1, 1, 1, 1, 1, 1, 1, 1, 1, 1, 1, 1], 1, 12, 12⟩, 1/2),
         (⟨"B", [2], 1, 1, 1⟩, 9/10)]).d =
      1200 * (1 - auditMaxWeight
        (cellFor 12 20 1200 1951 1980 1880
          [(⟨"A", [1, 1, 1, 1, 1, 1, 1, 1, 1, 1, 1, 1], 1, 12, 12⟩, 1/2),
           (⟨"B", [2], 1, 1, 1⟩, 9/10)]).contributed) :=
  ⟨by simp, C3_quality_score_amended 12 20 1200 1951 1980 1880
    [(⟨"A", [1, 1, 1, 1, 1, 1, 1, 1, 1, 1, 1, 1], 1, 12, 12⟩, 1/2),
     (⟨"B", [2], 1, 1, 1⟩, 9/10)] (by simp)
    (by intro c hc; fin_cases hc <;> norm_num)⟩

/-! ### `annzon` (step5.py lines 433-540)

The annual-mean loop (lines 471-482) and the alternate global blend
(lines 484-514) both work one zone-year (or zone-year-month) at a time;
they are embedded per year below.  `parameters.zone_annual_min_months`
comes from the `parameters` module, which is not under `src/`, so the
threshold is a parameter here. -/

/-- The four zone indices blended by the alternate global mean
(step5.py lines 489-493): `[8, 9, 9, 10]` for variant 1 and
`[8, 3, 4, 10]` for variant 2. -/
def altGlobalZoneList (glb : ℕ) : List ℕ :=
  if glb = 1 then [8, 9, 9, 10] else [8, 3, 4, 10]

/-- The blend weights `wtsp = [3.0, 2.0, 2.0, 3.0]` (step5.py line 494). -/
def wtsp : List ℚ := [3, 2, 2, 3]

/-- The `for...else` accumulation used for both the annual (step5.py
lines 496-504) and the monthly (lines 507-514) alternate global mean:
starting from `glob = 0.0`, walk the (zone, weight) pairs; the first
MISSING zone value leaves the result at its pre-assigned MISSING, and if
the loop completes the result is `0.1 * glob`. -/
def blendLoop (val : ℕ → ℚ) : List (ℕ × ℚ) → ℚ → ℚ
  | [], glob => (1/10) * glob
  | (z, w) :: rest, glob =>
    if val z = MISSING then MISSING else blendLoop val rest (glob + val z * w)

/-- The value `annzon` assigns to the last zone (`ann[-1][iy]`, or
`data[-1][iy][m]` in the monthly loop) for one year/month, as a function
of that year's (or month's) per-zone values `val`. -/
def altGlobal (glb : ℕ) (val : ℕ → ℚ) : ℚ :=
  blendLoop val ((altGlobalZoneList glb).zip wtsp) 0

/-- C6: with the alternate global estimator enabled, the last zone's
value for a year (and for a month, which runs the identical loop) is
`0.1·(3·z_a + 2·z_b + 2·z_c + 3·z_d)` with `(a,b,c,d) = (8,9,9,10)` for
variant 1 and `(8,3,4,10)` for variant 2 whenever all four contributing
zone values are valid, and MISSING whenever any one of them is MISSING. -/
theorem C6_alt_global_blend (v : ℕ → ℚ) :
    ((v 8 ≠ MISSING ∧ v 9 ≠ MISSING ∧ v 10 ≠ MISSING) →
      altGlobal 1 v = (1/10) * (3 * v 8 + 2 * v 9 + 2 * v 9 + 3 * v 10)) ∧
    ((v 8 = MISSING ∨ v 9 = MISSING ∨ v 10 = MISSING) →
      altGlobal 1 v = MISSING) ∧
    ((v 8 ≠ MISSING ∧ v 3 ≠ MISSING ∧ v 4 ≠ MISSING ∧ v 10 ≠ MISSING) →
      altGlobal 2 v = (1/10) * (3 * v 8 + 2 * v 3 + 2 * v 4 + 3 * v 10)) ∧
    ((v 8 = MISSING ∨ v 3 = MISSING ∨ v 4 = MISSING ∨ v 10 = MISSING) →
      altGlobal 2 v = MISSING) := by
  by_cases h8 : v 8 = MISSING <;> by_cases h9 : v 9 = MISSING <;>
    by_cases h10 : v 10 = MISSING <;> by_cases h3 : v 3 = MISSING <;>
    by_cases h4 : v 4 = MISSING <;>
    refine ⟨fun h => ?_, fun h => ?_, fun h => ?_, fun h => ?_⟩ <;>
    simp_all [altGlobal, altGlobalZoneList, wtsp, blendLoop] <;> ring

/-- The valid (non-MISSING) values of one year's 12 months. -/
def validMonths (months : List ℚ) : List ℚ :=
  months.filter (fun v => decide (v ≠ MISSING))

/-- The `(mon, anniy)` accumulation of `annzon`'s annual-mean loop
(step5.py lines 473-479): count and sum of the year's valid months. -/
def annLoop (months : List ℚ) : ℕ × ℚ :=
  months.foldl (fun s v => if v = MISSING then s else (s.1 + 1, s.2 + v)) (0, 0)

/-- The annual value `annzon` leaves in `ann[zone][iy]` for one year
(step5.py lines 457, 481-482): pre-initialised MISSING, overwritten with
`anniy / mon` when `mon >= zone_annual_min_months`. -/
def annualValue (months : List ℚ) (minMonths : ℕ) : ℚ :=
  if minMonths ≤ (annLoop months).1 then (annLoop months).2 / ((annLoop months).1 : ℚ)
  else MISSING

theorem annLoop_aux :
    ∀ (l : List ℚ) (a : ℕ) (b : ℚ),
      l.foldl (fun s v => if v = MISSING then s else (s.1 + 1, s.2 + v)) (a, b) =
        (a + (validMonths l).length, b + (validMonths l).sum)
  | [], a, b => by simp [validMonths]
  | v :: l, a, b => by
    by_cases hv : v = MISSING
    · simp [validMonths, hv, annLoop_aux l a b]
    · simp only [validMonths, List.foldl_cons, if_neg hv, annLoop_aux l (a + 1) (b + v),
        List.filter_cons]
      simp [hv]
      constructor
      · omega
      · ring

theorem annLoop_eq (months : List ℚ) :
    annLoop months = ((validMonths months).length, (validMonths months).sum) := by
  have := annLoop_aux months 0 0
  simpa [annLoop] using this

/-- C7: a year's annual mean is the arithmetic mean of its valid months
exactly when the count of valid months is at least
`zone_annual_min_months` (a positive threshold), and MISSING when the
count is below it; in particular a year with exactly `threshold - 1`
valid months gets MISSING, and with exactly `threshold` valid months
gets the computed mean. -/
theorem C7_annual_mean_threshold (months : List ℚ) (minMonths : ℕ)
    (hmin : 1 ≤ minMonths) :
    (minMonths ≤ (validMonths months).length →
      annualValue months minMonths =
        (validMonths months).sum / ((validMonths months).length : ℚ)) ∧
    ((validMonths months).length < minMonths →
      annualValue months minMonths = MISSING) ∧
    ((validMonths months).length = minMonths - 1 →
      annualValue months minMonths = MISSING) ∧
    ((validMonths months).length = minMonths →
      annualValue months minMonths =
        (validMonths months).sum / ((validMonths months).length : ℚ)) := by
  refine ⟨fun h => ?_, fun h => ?_, fun h => ?_, fun h => ?_⟩ <;>
    simp only [annualValue, annLoop_eq]
  · rw [if_pos h]
  · rw [if_neg (by omega)]
  · rw [if_neg (by omega)]
  · rw [if_pos (by omega)]

/-- Witness for C7 at the one-valid-month year `[5, MISSING]` with
threshold 1. -/
theorem C7_annual_mean_threshold_witness :
    1 ≤ 1 ∧
    ((1 ≤ (validMonths [5, MISSING]).length →
      annualValue [5, MISSING] 1 =
        (validMonths [5, MISSING]).sum / ((validMonths [5, MISSING]).length : ℚ)) ∧
    ((validMonths [5, MISSING]).length < 1 →
      annualValue [5, MISSING] 1 = MISSING) ∧
    ((validMonths [5, MISSING]).length = 1 - 1 →
      annualValue [5, MISSING] 1 = MISSING) ∧
    ((validMonths [5, MISSING]).length = 1 →
      annualValue [5, MISSING] 1 =
        (validMonths [5, MISSING]).sum / ((validMonths [5, MISSING]).length : ℚ))) :=
  ⟨le_refl 1, C7_annual_mean_threshold [5, MISSING] 1 (le_refl 1)⟩

/-! ### `subbox_to_box` and `whichbox` (step5.py lines 164-258)

The cells are partitioned into the 80 boxes by centroid containment
(`whichbox`, first match wins), then each box's contributors are sorted
by descending valid-month count and combined.  The centroid lookup
`eqarea.centre` is the external geometry collaborator and is passed in
as a function.  The dict-based partition of lines 189-194 is modelled by
filtering the cell list per box (equivalent for distinct boxes, and a
cell whose `whichbox` is `None` makes the dict lookup
`contributordict[None]` raise `KeyError`). -/

structure Box4 where
  s : ℚ
  n : ℚ
  w : ℚ
  e : ℚ
  deriving DecidableEq

/-- A cell (subbox series) as `subbox_to_box` reads it. -/
structure CellS where
  uid : String
  cbox : Box4
  series : List ℚ
  first_year : ℤ
  good_count : ℕ
  deriving DecidableEq

/-- The box quadruple `(anom, weight, ngood, box)` yielded per box
(step5.py line 246). -/
structure BoxOut where
  series : List ℚ
  weight : List ℚ
  ngood : ℕ
  box : Box4
  deriving DecidableEq

/-- The two ways the Python code fails in `subbox_to_box`:
`contributordict[None]` (`KeyError`) and `contributors[0]` on an empty
list (`IndexError`). -/
inductive PyErr where
  | keyError
  | indexError
  deriving DecidableEq

/-- Shallow embedding of `whichbox` (step5.py lines 249-258) given the
cell centre `(lat, lon)` already computed by the geometry collaborator:
the first box with `s <= lat < n and w <= lon < e`, else `none`. -/
def whichbox (boxes : List Box4) (lat lon : ℚ) : Option Box4 :=
  boxes.find? (fun b => decide (b.s ≤ lat ∧ lat < b.n ∧ b.w ≤ lon ∧ lon < b.e))

/-- The contributor list of one box: the cells whose centre `whichbox`
assigns to it, in input order (the dict partition of lines 189-194). -/
def boxContribs (centreOf : Box4 → ℚ × ℚ) (boxes : List Box4)
    (cells : List CellS) (b : Box4) : List CellS :=
  cells.filter (fun c =>
    decide (whichbox boxes (centreOf c.cbox).1 (centreOf c.cbox).2 = some b))

/-- `padded_series` (step5.py lines 196-205): pad a cell's series into
the box timeline starting at `meta.yrbeg` with `meta.monm` months. -/
def paddedSeries (yrbeg : ℤ) (monm : ℕ) (c : CellS) : List ℚ :=
  spliceAt (List.replicate monm MISSING) (12 * (c.first_year - yrbeg)).toNat
    ((12 * (c.first_year - yrbeg)).toNat + c.series.length) c.series

/-- Python's stable `sorted(..., key=lambda x: x.good_count,
reverse=True)` (step5.py lines 210-212). -/
def sortCells (cells : List CellS) : List CellS :=
  cells.insertionSort (fun x y => y.good_count ≤ x.good_count)

/-- The per-box combination (step5.py lines 214-246): seed with the top
cell, fold in the rest through `series.combine` when their valid count
meets `subbox_min_valid`, anomalize, and count the valid months. -/
def boxFor (yrbeg : ℤ) (monm minValid minOverlap : ℕ) (refS refE : ℤ)
    (b : Box4) (best : CellS) (rest : List CellS) : BoxOut :=
  let s0 := paddedSeries yrbeg monm best
  let w0 := s0.map (fun a => if a = MISSING then (0 : ℚ) else 1)
  let f := rest.foldl (fun st c =>
    if minValid ≤ c.good_count then
      let res := combine st.1 st.2 (paddedSeries yrbeg monm c) 1 minOverlap
      (res.1, res.2.1)
    else st) (s0, w0)
  let anom := anomalize f.1 refS refE yrbeg
  ⟨anom, f.2, (anom.filter (fun a => decide (a ≠ MISSING))).length, b⟩

/-- The `for idx, box in enumerate(boxes)` loop (step5.py lines
209-246): one `BoxOut` per box in order, stopping with an `IndexError`
at the first box whose contributor list is empty (`contributors[0]`). -/
def subboxLoop (centreOf : Box4 → ℚ × ℚ) (allBoxes : List Box4) (yrbeg : ℤ)
    (monm minValid minOverlap : ℕ) (refS refE : ℤ) (cells : List CellS) :
    List Box4 → List BoxOut × Option PyErr
  | [] => ([], none)
  | b :: rest =>
    match sortCells (boxContribs centreOf allBoxes cells b) with
    | [] => ([], some PyErr.indexError)
    | best :: others =>
      let out := boxFor yrbeg monm minValid minOverlap refS refE b best others
      let r := subboxLoop centreOf allBoxes yrbeg monm minValid minOverlap refS refE
        cells rest
      (out :: r.1, r.2)

/-- Shallow embedding of `subbox_to_box` (step5.py lines 164-246): the
partition loop runs first (raising `KeyError` through
`contributordict[None]` if any cell matches no box), then the per-box
loop yields box results until its first empty box. -/
def subbox_to_box (centreOf : Box4 → ℚ × ℚ) (yrbeg : ℤ)
    (monm minValid minOverlap : ℕ) (refS refE : ℤ) (boxes : List Box4)
    (cells : List CellS) : List BoxOut × Option PyErr :=
  if cells.all (fun c =>
      (whichbox boxes (centreOf c.cbox).1 (centreOf c.cbox).2).isSome) then
    subboxLoop centreOf boxes yrbeg monm minValid minOverlap refS refE cells boxes
  else ([], some PyErr.keyError)

theorem sortCells_eq_nil_iff (cells : List CellS) :
    sortCells cells = [] ↔ cells = [] := by
  constructor
  · intro h
    have := (List.perm_insertionSort
      (fun x y => y.good_count ≤ x.good_count) cells).length_eq
    rw [sortCells] at h
    rw [h] at this
    exact List.eq_nil_of_length_eq_zero this.symm
  · intro h
    rw [h]
    rfl

theorem subboxLoop_first_empty (centreOf : Box4 → ℚ × ℚ)
    (allBoxes : List Box4) (yrbeg : ℤ) (monm minValid minOverlap : ℕ)
    (refS refE : ℤ) (cells : List CellS) :
    ∀ (bl : List Box4), (∃ b ∈ bl, boxContribs centreOf allBoxes cells b = []) →
      (subboxLoop centreOf allBoxes yrbeg monm minValid minOverlap refS refE
          cells bl).2 = some PyErr.indexError ∧
      (subboxLoop centreOf allBoxes yrbeg monm minValid minOverlap refS refE
          cells bl).1.length =
        bl.findIdx (fun b => (boxContribs centreOf allBoxes cells b).isEmpty)
  | [], hex => by simp at hex
  | b :: rest, hex => by
    by_cases hb : boxContribs centreOf allBoxes cells b = []
    · have hs : sortCells (boxContribs centreOf allBoxes cells b) = [] := by
        rw [hb]; rfl
      have hp : (boxContribs centreOf allBoxes cells b).isEmpty = true := by
        rw [hb]; rfl
      simp [subboxLoop, hs, List.findIdx_cons, hp]
    · have hrest : ∃ x ∈ rest, boxContribs centreOf allBoxes cells x = [] := by
        rcases hex with ⟨x, hx, hxe⟩
        rcases List.mem_cons.mp hx with h | h
        · exact absurd (h ▸ hxe) hb
        · exact ⟨x, h, hxe⟩
      obtain ⟨ih1, ih2⟩ := subboxLoop_first_empty centreOf allBoxes yrbeg monm
        minValid minOverlap refS refE cells rest hrest
      have hp : (boxContribs centreOf allBoxes cells b).isEmpty = false := by
        cases hc : boxContribs centreOf allBoxes cells b with
        | nil => exact absurd hc hb
        | cons x l => rfl
      cases hs : sortCells (boxContribs centreOf allBoxes cells b) with
      | nil => exact absurd ((sortCells_eq_nil_iff _).mp hs) hb
      | cons best others =>
        simp [subboxLoop, hs, List.findIdx_cons, hp, ih1, ih2]

/-- C10: `subbox_to_box` requires every box to receive a contributing
cell: when the partition succeeds but some box's contributor list is
empty, the per-box loop raises `IndexError` at the first such box after
yielding exactly the results of the earlier boxes (no empty box result
is yielded); and a cell whose centre is contained in no box makes
`whichbox` return `None`, upon which `subbox_to_box` fails with a
`KeyError` before yielding anything, rather than dropping the cell. -/
theorem C10_subbox_to_box_errors (centreOf : Box4 → ℚ × ℚ) (yrbeg : ℤ)
    (monm minValid minOverlap : ℕ) (refS refE : ℤ) (boxes : List Box4)
    (cells : List CellS) :
    ((∃ c ∈ cells, whichbox boxes (centreOf c.cbox).1 (centreOf c.cbox).2 = none) →
      subbox_to_box centreOf yrbeg monm minValid minOverlap refS refE boxes cells =
        ([], some PyErr.keyError)) ∧
    ((∀ c ∈ cells, (whichbox boxes (centreOf c.cbox).1 (centreOf c.cbox).2).isSome) →
      (∃ b ∈ boxes, boxContribs centreOf boxes cells b = []) →
      (subbox_to_box centreOf yrbeg monm minValid minOverlap refS refE boxes
          cells).2 = some PyErr.indexError ∧
      (subbox_to_box centreOf yrbeg monm minValid minOverlap refS refE boxes
          cells).1.length =
        boxes.findIdx (fun b => (boxContribs centreOf boxes cells b).isEmpty)) := by
  constructor
  · intro hex
    rcases hex with ⟨c, hc, hnone⟩
    have hall : ¬ (cells.all (fun c =>
        (whichbox boxes (centreOf c.cbox).1 (centreOf c.cbox).2).isSome) = true) := by
      intro hall
      have := List.all_eq_true.mp hall c hc
      rw [hnone] at this
      exact Bool.false_ne_true this
    rw [subbox_to_box, if_neg hall]
  · intro hall hex
    have hall2 : cells.all (fun c =>
        (whichbox boxes (centreOf c.cbox).1 (centreOf c.cbox).2).isSome) = true :=
      List.all_eq_true.mpr hall
    rw [subbox_to_box, if_pos hall2]
    exact subboxLoop_first_empty centreOf boxes yrbeg monm minValid minOverlap
      refS refE cells boxes hex

/-- Witness for C10 at two concrete scenarios: a cell contained in no
box (empty box list), and a box receiving no cell (empty cell list). -/
theorem C10_subbox_to_box_errors_witness :
    (subbox_to_box (fun _ => (0, 0)) 1880 12 1 1 1951 1980 []
      [⟨"c", ⟨0, 1, 0, 1⟩, [], 1880, 0⟩] = ([], some PyErr.keyError)) ∧
    ((subbox_to_box (fun _ => (0, 0)) 1880 12 1 1 1951 1980 [⟨0, 1, 0, 1⟩]
        []).2 = some PyErr.indexError ∧
      (subbox_to_box (fun _ => (0, 0)) 1880 12 1 1 1951 1980 [⟨0, 1, 0, 1⟩]
          []).1.length =
        List.findIdx
          (fun b => (boxContribs (fun _ => (0, 0)) [⟨0, 1, 0, 1⟩] [] b).isEmpty)
          [⟨0, 1, 0, 1⟩]) :=
  ⟨(C10_subbox_to_box_errors (fun _ => (0, 0)) 1880 12 1 1 1951 1980 []
      [⟨"c", ⟨0, 1, 0, 1⟩, [], 1880, 0⟩]).1
      ⟨⟨"c", ⟨0, 1, 0, 1⟩, [], 1880, 0⟩, List.mem_cons_self _ _, rfl⟩,
    (C10_subbox_to_box_errors (fun _ => (0, 0)) 1880 12 1 1 1951 1980
      [⟨0, 1, 0, 1⟩] []).2 (by intro c hc; simp at hc)
      ⟨⟨0, 1, 0, 1⟩, List.mem_cons_self _ _, rfl⟩⟩

/-! ### `incircle` (step3.py lines 27-79)

The Python floats are modelled as reals.  `cosd` is the spherical
law-of-cosines dot product the code computes from the degree
coordinates; a record is yielded when `cosd > cos(arc)`, with weight
`1 - sqrt(2*(1 - cosd))/arc`.  The great-circle angular distance of the
claims is `arccos cosd`. -/

noncomputable section

open Real Filter Topology

/-- A station's position as `incircle` reads it (`record.station.lat`,
`record.station.lon`, in degrees). -/
structure Station where
  lat : ℝ
  lon : ℝ

/-- The cosine of the angle subtended by the arc between the target
`(lat, lon)` and the station `(slat, slon)` (step3.py lines 48-74). -/
def cosd (lat lon slat slon : ℝ) : ℝ :=
  let coslat := Real.cos (lat * π / 180)
  let sinlat := Real.sin (lat * π / 180)
  let coslon := Real.cos (lon * π / 180)
  let sinlon := Real.sin (lon * π / 180)
  let sinlats := Real.sin (slat * π / 180)
  let coslats := Real.cos (slat * π / 180)
  let sinlons := Real.sin (slon * π / 180)
  let coslons := Real.cos (slon * π / 180)
  sinlats * sinlat + coslats * coslat * (coslons * coslon + sinlons * sinlon)

/-- The weight `1 - sqrt(2*(1 - cosd))/arc` computed at step3.py lines
77-78, as a function of the cosine value. -/
def incWeight (arc c : ℝ) : ℝ := 1 - Real.sqrt (2 * (1 - c)) / arc

/-- The weight `incircle` attaches to a yielded station. -/
def stWeight (arc lat lon slat slon : ℝ) : ℝ :=
  incWeight arc (cosd lat lon slat slon)

/-- The weight as a function of the angular distance `θ`:
`1 - sqrt(2*(1 - cos θ))/arc` (chord length over arc). -/
def chordWeight (arc θ : ℝ) : ℝ := incWeight arc (Real.cos θ)

/-- The great-circle angular distance between target and station. -/
def angDist (lat lon slat slon : ℝ) : ℝ :=
  Real.arccos (cosd lat lon slat slon)

/-- Shallow embedding of `incircle` (step3.py lines 27-79): the filter
keeps, in input order, the records with `cosd > cos(arc)`, paired with
their weights. -/
def incircle (arc lat lon : ℝ) (recs : List Station) : List (Station × ℝ) :=
  recs.filterMap (fun st =>
    if Real.cos arc < cosd lat lon st.lat st.lon then
      some (st, stWeight arc lat lon st.lat st.lon)
    else none)

theorem cosd_mem_Icc (lat lon slat slon : ℝ) :
    cosd lat lon slat slon ∈ Set.Icc (-1 : ℝ) 1 := by
  rw [cosd]
  set a := slat * π / 180 with ha
  set b := lat * π / 180 with hb
  set u := slon * π / 180 with hu
  set v := lon * π / 180 with hv
  have ht : Real.cos u * Real.cos v + Real.sin u * Real.sin v = Real.cos (u - v) :=
    (Real.cos_sub u v).symm
  simp only [ht]
  have h1 : Real.cos (u - v) ≤ 1 := Real.cos_le_one _
  have h2 : -1 ≤ Real.cos (u - v) := Real.neg_one_le_cos _
  have hsub : Real.cos (a - b) = Real.cos a * Real.cos b + Real.sin a * Real.sin b :=
    Real.cos_sub a b
  have hadd : Real.cos (a + b) = Real.cos a * Real.cos b - Real.sin a * Real.sin b :=
    Real.cos_add a b
  have hsub1 : Real.cos (a - b) ≤ 1 := Real.cos_le_one _
  have hsub2 : -1 ≤ Real.cos (a - b) := Real.neg_one_le_cos _
  have hadd1 : Real.cos (a + b) ≤ 1 := Real.cos_le_one _
  have hadd2 : -1 ≤ Real.cos (a + b) := Real.neg_one_le_cos _
  rcases le_or_lt 0 (Real.cos a * Real.cos b) with hc | hc
  · constructor
    · nlinarith [mul_le_mul_of_nonneg_left h2 hc]
    · nlinarith [mul_le_mul_of_nonneg_left h1 hc]
  · constructor
    · nlinarith [mul_le_mul_of_nonpos_left h1 hc.le]
    · nlinarith [mul_le_mul_of_nonpos_left h2 hc.le]

theorem cos_angDist (lat lon slat slon : ℝ) :
    Real.cos (angDist lat lon slat slon) = cosd lat lon slat slon := by
  have h := cosd_mem_Icc lat lon slat slon
  exact Real.cos_arccos h.1 h.2

/-- For `0 < x`, the chord of `x` is shorter than the arc:
`sqrt(2*(1 - cos x)) < x`. -/
theorem sqrt_two_sub_cos_lt (x : ℝ) (hx : 0 < x) :
    Real.sqrt (2 * (1 - Real.cos x)) < x := by
  have hx2 : Real.cos x = Real.cos (x / 2) ^ 2 - Real.sin (x / 2) ^ 2 := by
    have h := Real.cos_two_mul' (x / 2)
    rw [show 2 * (x / 2) = x by ring] at h
    exact h
  have hpyth := Real.sin_sq_add_cos_sq (x / 2)
  have h4 : 2 * (1 - Real.cos x) = (2 * |Real.sin (x / 2)|) ^ 2 := by
    have : (2 * |Real.sin (x / 2)|) ^ 2 = 4 * Real.sin (x / 2) ^ 2 := by
      rw [mul_pow, sq_abs]; norm_num
    rw [this]; nlinarith
  rw [h4, Real.sqrt_sq (by positivity)]
  rcases le_or_lt (x / 2) π with hle | hgt
  · have hnn : 0 ≤ Real.sin (x / 2) :=
      Real.sin_nonneg_of_nonneg_of_le_pi (by linarith) hle
    rw [abs_of_nonneg hnn]
    have := Real.sin_lt (show 0 < x / 2 by linarith)
    linarith
  · have habs : |Real.sin (x / 2)| ≤ 1 :=
      abs_le.mpr ⟨Real.neg_one_le_sin _, Real.sin_le_one _⟩
    nlinarith [Real.pi_gt_three]

/-- C2 as amended: for every positive arc, the weight
`1 - sqrt(2*(1 - cos θ))/arc` that `incircle` attaches to a station at
angular distance `θ` is exactly 1 at `θ = 0`, strictly decreasing in `θ`
on `[0, π]`, and tends, as `θ` approaches `arc` from below, to the
strictly positive value `1 - sqrt(2*(1 - cos arc))/arc` (not to 0). -/
theorem C2_weight_properties (arc : ℝ) (h0 : 0 < arc) :
    chordWeight arc 0 = 1 ∧
    (∀ θ₁ θ₂ : ℝ, 0 ≤ θ₁ → θ₁ < θ₂ → θ₂ ≤ π →
      chordWeight arc θ₂ < chordWeight arc θ₁) ∧
    Filter.Tendsto (chordWeight arc) (nhdsWithin arc (Set.Iio arc))
      (nhds (chordWeight arc arc)) ∧
    0 < chordWeight arc arc ∧
    (∀ lat lon slat slon : ℝ, stWeight arc lat lon slat slon =
      chordWeight arc (angDist lat lon slat slon)) := by
  have hfun : chordWeight arc =
      fun θ => 1 - Real.sqrt (2 * (1 - Real.cos θ)) / arc := rfl
  refine ⟨?_, ?_, ?_, ?_, ?_⟩
  · rw [chordWeight, incWeight, Real.cos_zero]
    norm_num
  · intro θ₁ θ₂ hθ₁ hlt hθ₂
    have hcos : Real.cos θ₂ < Real.cos θ₁ :=
      Real.cos_lt_cos_of_nonneg_of_le_pi hθ₁ hθ₂ hlt
    have harg : (0 : ℝ) ≤ 2 * (1 - Real.cos θ₁) := by
      nlinarith [Real.cos_le_one θ₁]
    have hsq : Real.sqrt (2 * (1 - Real.cos θ₁)) <
        Real.sqrt (2 * (1 - Real.cos θ₂)) :=
      Real.sqrt_lt_sqrt harg (by nlinarith)
    have := div_lt_div_of_pos_right hsq h0
    simp only [chordWeight, incWeight]
    linarith
  · have hc : Continuous (chordWeight arc) := by
      rw [hfun]
      exact continuous_const.sub ((Real.continuous_sqrt.comp
        (continuous_const.mul (continuous_const.sub Real.continuous_cos))).div_const arc)
    exact (hc.tendsto arc).mono_left nhdsWithin_le_nhds
  · have h := sqrt_two_sub_cos_lt arc h0
    simp only [chordWeight, incWeight]
    rw [sub_pos, div_lt_one h0]
    exact h
  · intro lat lon slat slon
    rw [stWeight, chordWeight, cos_angDist]

/-- Witness for C2 at `arc = 1`. -/
theorem C2_weight_properties_witness :
    0 < (1 : ℝ) ∧
    (chordWeight 1 0 = 1 ∧
    (∀ θ₁ θ₂ : ℝ, 0 ≤ θ₁ → θ₁ < θ₂ → θ₂ ≤ π →
      chordWeight 1 θ₂ < chordWeight 1 θ₁) ∧
    Filter.Tendsto (chordWeight 1) (nhdsWithin 1 (Set.Iio 1))
      (nhds (chordWeight 1 1)) ∧
    0 < chordWeight 1 1 ∧
    (∀ lat lon slat slon : ℝ, stWeight 1 lat lon slat slon =
      chordWeight 1 (angDist lat lon slat slon))) :=
  ⟨one_pos, C2_weight_properties 1 one_pos⟩

/-- C2 counterexample: at `arc = π` the weight does not approach 0 as
the angular distance approaches `arc`; its limit from below is
`1 - 2/π > 0`, because the chord of `π` is 2, not `π`. -/
theorem C2_weight_limit_not_zero :
    ¬ Filter.Tendsto (chordWeight π) (nhdsWithin π (Set.Iio π)) (nhds 0) := by
  intro h
  have hc : Continuous (chordWeight π) := by
    have hfun : chordWeight π =
        fun θ => 1 - Real.sqrt (2 * (1 - Real.cos θ)) / π := rfl
    rw [hfun]
    exact continuous_const.sub ((Real.continuous_sqrt.comp
      (continuous_const.mul (continuous_const.sub Real.continuous_cos))).div_const π)
  have h2 : Filter.Tendsto (chordWeight π) (nhdsWithin π (Set.Iio π))
      (nhds (chordWeight π π)) :=
    (hc.tendsto π).mono_left nhdsWithin_le_nhds
  have huniq : (0 : ℝ) = chordWeight π π := tendsto_nhds_unique h h2
  have hval : chordWeight π π = 1 - 2 / π := by
    have h4 : (2 : ℝ) * (1 - Real.cos π) = 2 ^ 2 := by
      rw [Real.cos_pi]; norm_num
    rw [chordWeight, incWeight, h4, Real.sqrt_sq (by norm_num)]
  rw [hval] at huniq
  have hpi : (2 : ℝ) < π := by nlinarith [Real.pi_gt_three]
  have hπ0 : (0 : ℝ) < π := Real.pi_pos
  have : (2 : ℝ) / π < 1 := by
    rw [div_lt_one hπ0]; exact hpi
  linarith

/-- C8 counterexample: with `arc = 2π` (a positive arc radius) a station
at the target point itself has angular distance `0 < 2π`, yet `incircle`
yields nothing, because the code's test is `cosd > cos(arc)` and
`cos(2π) = 1`. -/
theorem C8_incircle_counterexample :
    incircle (2 * π) 0 0 [⟨0, 0⟩] = [] ∧ angDist 0 0 0 0 < 2 * π := by
  have hc : cosd 0 0 0 0 = 1 := by
    simp [cosd]
  constructor
  · have hnot : ¬ Real.cos (2 * π) < cosd 0 0 0 0 := by
      rw [hc, Real.cos_two_pi]
      exact lt_irrefl 1
    simp [incircle, hnot, hc]
  · rw [angDist, hc, Real.arccos_one]
    positivity

theorem incircle_cond_iff (arc lat lon slat slon : ℝ) (h0 : 0 < arc)
    (hπ : arc ≤ π) :
    Real.cos arc < cosd lat lon slat slon ↔ angDist lat lon slat slon < arc := by
  have hmem := cosd_mem_Icc lat lon slat slon
  have hcosmem : Real.cos arc ∈ Set.Icc (-1 : ℝ) 1 :=
    ⟨Real.neg_one_le_cos arc, Real.cos_le_one arc⟩
  constructor
  · intro h
    have := Real.strictAntiOn_arccos hcosmem hmem h
    rwa [Real.arccos_cos h0.le hπ] at this
  · intro h
    by_contra hnot
    push_neg at hnot
    rcases eq_or_lt_of_le hnot with he | hlt
    · rw [angDist, he, Real.arccos_cos h0.le hπ] at h
      exact lt_irrefl arc h
    · have := Real.strictAntiOn_arccos hmem hcosmem hlt
      rw [Real.arccos_cos h0.le hπ] at this
      rw [angDist] at h
      linarith

/-- C8 as amended: for every arc radius in `(0, π]`, `incircle` yields
exactly the records whose great-circle angular distance to the target is
strictly less than `arc` — in input order, each paired with its weight
(for `arc > π` the code's `cosd > cos(arc)` test no longer coincides
with `distance < arc`). -/
theorem C8_incircle_filter (arc lat lon : ℝ) (recs : List Station)
    (h0 : 0 < arc) (hπ : arc ≤ π) :
    incircle arc lat lon recs =
      (recs.filter (fun st => decide (angDist lat lon st.lat st.lon < arc))).map
        (fun st => (st, stWeight arc lat lon st.lat st.lon)) := by
  induction recs with
  | nil => rfl
  | cons st rest ih =>
    by_cases hcond : Real.cos arc < cosd lat lon st.lat st.lon
    · have hd : angDist lat lon st.lat st.lon < arc :=
        (incircle_cond_iff arc lat lon st.lat st.lon h0 hπ).mp hcond
      simp only [incircle, List.filterMap_cons, List.filter_cons, if_pos hcond,
        decide_eq_true_eq, hd, if_true, List.map_cons]
      exact congrArg _ ih
    · have hd : ¬ angDist lat lon st.lat st.lon < arc :=
        fun h => hcond ((incircle_cond_iff arc lat lon st.lat st.lon h0 hπ).mpr h)
      simp only [incircle, List.filterMap_cons, List.filter_cons, if_neg hcond,
        decide_eq_true_eq, hd, if_false, List.map_cons]
      exact ih

/-- Witness for the amended C8 at `arc = π` and a station at the target. -/
theorem C8_incircle_filter_witness :
    0 < π ∧ π ≤ π ∧
    incircle π 0 0 [⟨0, 0⟩] =
      (([⟨0, 0⟩] : List Station).filter
        (fun st => decide (angDist 0 0 st.lat st.lon < π))).map
        (fun st => (st, stWeight π 0 0 st.lat st.lon)) :=
  ⟨Real.pi_pos, le_refl π,
    C8_incircle_filter π 0 0 [⟨0, 0⟩] Real.pi_pos (le_refl π)⟩

end

end Gistemp
